import Mathlib

/-!
Verification of the dog-friendly-places directory (dogsg).

This file gives a shallow embedding of the parts of the repository that the
specification talks about:

* the listing data model and the filter/rank pipeline of
  `src/components/MapDirectory.tsx` (`filtered`, `searchFiltered`, `geojson`),
* the haversine great-circle distance `haversineKm`,
* the slug-assignment script `src/scripts/addSlugs.mjs`,
* the legacy id-route redirect (`OldIdRedirectPage`),
* the park-verification batch script `src/scripts/verify_parks_serpapi.mjs`
  (`decideFromText` and the per-record try/catch loop of `main`).

JavaScript numbers are modelled by an arbitrary linear order with a zero in
the pipeline (which only compares and copies them) and by the real numbers in
the haversine formula; strings are modelled by `String` with
character-level models of `toLowerCase`, `trim`, `includes` and the regex
steps of `slugify`; the stable `Array.prototype.sort` required by ECMA-262 is
modelled by a stable insertion sort parameterised by the comparator's `le`
relation.  External effects (the SerpAPI HTTP call) are modelled by an oracle
parameter returning either a result or an error, which is what the `try/catch`
in the script branches on.
-/

namespace DogSG

/-- The closed category set of `MapDirectory.tsx` (`type Category = ...`). -/
inductive Category
  | cafe | hotel | mall | park | groomer | vet | supplies
deriving DecidableEq

/-- A latitude/longitude pair (`{ lat: number; lng: number }`). -/
structure LatLng (α : Type) where
  lat : α
  lng : α
deriving DecidableEq

/-- The `Listing` record of `MapDirectory.tsx` (fields not used by any claim
are kept optional exactly as in the source; numeric fields are over `α`). -/
structure Listing (α : Type) where
  id : String
  slug : String
  name : String
  category : Category
  address : String
  lat : α
  lng : α
  note : Option String := none
  rating : Option α := none
  userRatingCount : Option Nat := none
  verificationStatus : Option String := none
  verifiedBy : Option String := none
deriving DecidableEq

/-- `ListingWithDistance = Listing & { distanceKm: number | null }`. -/
structure RankedListing (α : Type) extends Listing α where
  distanceKm : Option α
deriving DecidableEq

/-- `l.distanceKm ?? 0`, as used by the radius filter and the sort comparator. -/
def distOrZero [Zero α] (r : RankedListing α) : α := r.distanceKm.getD 0

/-! ### Character-level string helpers

These model the JavaScript string operations used by the source:
`toLowerCase` (ASCII case folding), `trim`, `includes` (substring test). -/

/-- ASCII lower-casing of one character, modelling `toLowerCase` on the ASCII
range the dataset uses. -/
def lowerChar (c : Char) : Char :=
  if 'A' ≤ c ∧ c ≤ 'Z' then Char.ofNat (c.toNat + 32) else c

/-- `s.toLowerCase()`. -/
def lowerString (s : String) : String := ⟨s.data.map lowerChar⟩

/-- `trim` on a character list: drop whitespace from both ends. -/
def trimChars (s : List Char) : List Char :=
  ((s.dropWhile Char.isWhitespace).reverse.dropWhile Char.isWhitespace).reverse

/-- `s.trim()`. -/
def jsTrim (s : String) : String := ⟨trimChars s.data⟩

/-- `hay.includes(needle)` on character lists: some (possibly empty)
contiguous segment of `hay` equals `needle`. -/
def listContainsSub (hay needle : List Char) : Bool :=
  needle.isPrefixOf hay ||
    match hay with
    | [] => false
    | _ :: t => listContainsSub t needle

/-- `s.includes(sub)` for strings. -/
def strIncludes (s sub : String) : Bool := listContainsSub s.data sub.data

/-! ### Stable sort

ECMA-262 requires `Array.prototype.sort` to be stable; the source sorts with
the comparator `(a, b) => (a.distanceKm ?? 0) - (b.distanceKm ?? 0)`.  We
model this by insertion sort with the comparator's `le` relation, inserting
each element before the first element it is `le`-related to, which keeps
original order among ties. -/

/-- Insert `a` into `l`, before the first element `b` with `le a b`. -/
def insertSorted (le : α → α → Bool) (a : α) : List α → List α
  | [] => [a]
  | b :: bs => if le a b then a :: b :: bs else b :: insertSorted le a bs

/-- Stable sort of `l` by `le` (model of the stable `Array.prototype.sort`). -/
def sortBy (le : α → α → Bool) (l : List α) : List α :=
  l.foldr (insertSorted le) []

/-! ### The filter/rank pipeline (`MapDirectory.tsx`, `filtered` /
`searchFiltered` / `geojson`) -/

/-- The comparator relation of `filtered`'s sort:
`(a.distanceKm ?? 0) - (b.distanceKm ?? 0) <= 0`. -/
def distLe [LinearOrder α] [Zero α] (a b : RankedListing α) : Bool :=
  decide (distOrZero a ≤ distOrZero b)

/-- The `filtered` memo of `MapDirectory.tsx`, with the geo-distance function
`dist` as a parameter (the source fixes `dist := haversineKm`):

```
const base = SAMPLE_LISTINGS.filter((l) => selectedCategories.has(l.category));
if (!userPos) return base.map((l) => ({ ...l, distanceKm: null }));
return base
  .map((l) => ({ ...l, distanceKm: haversineKm(userPos, { lat: l.lat, lng: l.lng }) }))
  .filter((l) => (l.distanceKm ?? 0) <= radiusKm)
  .sort((a, b) => (a.distanceKm ?? 0) - (b.distanceKm ?? 0));
``` -/
def filtered [LinearOrder α] [Zero α] (dist : LatLng α → LatLng α → α)
    (listings : List (Listing α)) (selectedCategories : Finset Category)
    (userPos : Option (LatLng α)) (radiusKm : α) : List (RankedListing α) :=
  let base := listings.filter (fun l => decide (l.category ∈ selectedCategories))
  match userPos with
  | none => base.map (fun l => ⟨l, none⟩)
  | some pos =>
      sortBy distLe
        ((base.map (fun l => (⟨l, some (dist pos ⟨l.lat, l.lng⟩)⟩ : RankedListing α))).filter
          (fun l => decide (distOrZero l ≤ radiusKm)))

/-- The category-filtered, distance-annotated, radius-cut list in original
collection order — the input of `filtered`'s sort when a reference point is
set.  (Named so the stability statement can refer to the pre-sort order.) -/
def annotatedWithin [LinearOrder α] [Zero α] (dist : LatLng α → LatLng α → α)
    (listings : List (Listing α)) (selectedCategories : Finset Category)
    (pos : LatLng α) (radiusKm : α) : List (RankedListing α) :=
  ((listings.filter (fun l => decide (l.category ∈ selectedCategories))).map
      (fun l => (⟨l, some (dist pos ⟨l.lat, l.lng⟩)⟩ : RankedListing α))).filter
    (fun l => decide (distOrZero l ≤ radiusKm))

/-- The match predicate of the `searchFiltered` memo, for an already trimmed
and lowercased query `q`. -/
def searchMatch [LinearOrder α] [Zero α] (q : String) (l : RankedListing α) : Bool :=
  strIncludes (lowerString l.name) q || strIncludes (lowerString l.address) q

/-- The `searchFiltered` memo of `MapDirectory.tsx`:

```
const q = appliedQuery.trim().toLowerCase();
if (!q) return filtered;
return filtered.filter((l) => {
  const name = (l.name ?? "").toLowerCase();
  const address = (l.address ?? "").toLowerCase();
  return name.includes(q) || address.includes(q);
});
``` -/
def searchFiltered [LinearOrder α] [Zero α] (appliedQuery : String)
    (filteredList : List (RankedListing α)) : List (RankedListing α) :=
  let q := lowerString (jsTrim appliedQuery)
  if q.data.isEmpty then filteredList
  else filteredList.filter (searchMatch q)

/-- The per-category emoji table `CATEGORY_EMOJI`. -/
def categoryEmoji : Category → String
  | .cafe => "☕"
  | .hotel => "🏨"
  | .mall => "🛍️"
  | .park => "🌳"
  | .groomer => "✂️"
  | .vet => "🩺"
  | .supplies => "🦴"

/-- One GeoJSON point feature as built by the `geojson` memo: geometry
coordinates `[lng, lat]` plus the property bag.  The source renders a null
`rating` / `userRatingCount` as `""`; we keep them as options. -/
structure Feature (α : Type) where
  coordinates : α × α
  id : String
  slug : String
  name : String
  category : Category
  address : String
  note : String
  emoji : String
  rating : Option α
  userRatingCount : Option Nat
deriving DecidableEq

/-- The feature built for one listing by the `geojson` memo. -/
def featureOf (l : RankedListing α) : Feature α :=
  { coordinates := (l.lng, l.lat)
    id := l.id
    slug := l.slug
    name := l.name
    category := l.category
    address := l.address
    note := l.note.getD ""
    emoji := categoryEmoji l.category
    rating := l.rating
    userRatingCount := l.userRatingCount }

/-- The `geojson` memo: one feature per element of `searchFiltered`, in
order. -/
def geojson (rows : List (RankedListing α)) : List (Feature α) :=
  rows.map featureOf

/-! ### Lemmas about the stable sort -/

theorem insertSorted_perm (le : α → α → Bool) (a : α) (l : List α) :
    (insertSorted le a l).Perm (a :: l) := by
  induction l with
  | nil => simp [insertSorted]
  | cons b bs ih =>
      by_cases h : le a b = true
      · simp [insertSorted, h]
      · simp only [insertSorted, if_neg h]
        exact (ih.cons b).trans (List.Perm.swap a b bs)

theorem sortBy_perm (le : α → α → Bool) (l : List α) : (sortBy le l).Perm l := by
  induction l with
  | nil => simp [sortBy]
  | cons x xs ih =>
      have : sortBy le (x :: xs) = insertSorted le x (sortBy le xs) := rfl
      rw [this]
      exact (insertSorted_perm le x (sortBy le xs)).trans (ih.cons x)

theorem insertSorted_pairwise (le : α → α → Bool)
    (htrans : ∀ a b c, le a b = true → le b c = true → le a c = true)
    (htotal : ∀ a b, le a b = false → le b a = true) (a : α) (l : List α)
    (h : l.Pairwise (fun x y => le x y = true)) :
    (insertSorted le a l).Pairwise (fun x y => le x y = true) := by
  induction l with
  | nil => simp [insertSorted]
  | cons b bs ih =>
      rcases List.pairwise_cons.mp h with ⟨hb, hbs⟩
      by_cases hab : le a b = true
      · simp only [insertSorted, if_pos hab]
        refine List.pairwise_cons.mpr ⟨?_, h⟩
        intro c hc
        rcases List.mem_cons.mp hc with rfl | hc
        · exact hab
        · exact htrans a b c hab (hb c hc)
      · simp only [insertSorted, if_neg hab]
        refine List.pairwise_cons.mpr ⟨?_, ih hbs⟩
        intro c hc
        have hc' : c ∈ a :: bs := ((insertSorted_perm le a bs).mem_iff).mp hc
        rcases List.mem_cons.mp hc' with hca | hc'
        · rw [hca]
          exact htotal a b (Bool.eq_false_iff.mpr hab)
        · exact hb c hc'

theorem sortBy_pairwise (le : α → α → Bool)
    (htrans : ∀ a b c, le a b = true → le b c = true → le a c = true)
    (htotal : ∀ a b, le a b = false → le b a = true) (l : List α) :
    (sortBy le l).Pairwise (fun x y => le x y = true) := by
  induction l with
  | nil => simp [sortBy]
  | cons x xs ih => exact insertSorted_pairwise le htrans htotal x (sortBy le xs) ih

theorem filter_insertSorted_pos (le : α → α → Bool) (p : α → Bool) (a : α)
    (l : List α) (hpa : p a = true) (hskip : ∀ b, p b = true → le a b = true) :
    (insertSorted le a l).filter p = a :: l.filter p := by
  induction l with
  | nil => simp [insertSorted, hpa]
  | cons b bs ih =>
      by_cases hab : le a b = true
      · simp [insertSorted, hab, List.filter_cons, hpa]
      · have hpb : p b = false := by
          cases hb : p b with
          | false => rfl
          | true => exact absurd (hskip b hb) (by simp [hab])
        simp [insertSorted, hab, List.filter_cons, hpb, ih]

theorem filter_insertSorted_neg (le : α → α → Bool) (p : α → Bool) (a : α)
    (l : List α) (hpa : p a = false) :
    (insertSorted le a l).filter p = l.filter p := by
  induction l with
  | nil => simp [insertSorted, hpa]
  | cons b bs ih =>
      by_cases hab : le a b = true
      · simp [insertSorted, hab, List.filter_cons, hpa]
      · cases hpb : p b with
        | false => simp [insertSorted, hab, List.filter_cons, hpb, ih]
        | true => simp [insertSorted, hab, List.filter_cons, hpb, ih]

/-- Stability of the sort on any class of mutually tied elements: sorting does
not change the relative order (hence the filtered subsequence) of elements
that compare equal. -/
theorem sortBy_filter_tied (le : α → α → Bool) (p : α → Bool)
    (htie : ∀ a b, p a = true → p b = true → le a b = true) (l : List α) :
    (sortBy le l).filter p = l.filter p := by
  induction l with
  | nil => simp [sortBy]
  | cons x xs ih =>
      have hx : sortBy le (x :: xs) = insertSorted le x (sortBy le xs) := rfl
      rw [hx]
      cases hpx : p x with
      | true =>
          rw [filter_insertSorted_pos le p x (sortBy le xs) hpx
            (fun b hb => htie x b hpx hb), ih, List.filter_cons, hpx]
          simp
      | false =>
          rw [filter_insertSorted_neg le p x (sortBy le xs) hpx, ih,
            List.filter_cons, hpx]
          simp

/-- `filtered` with a reference point set is the stable sort of the pre-sort
stage `annotatedWithin`. -/
theorem filtered_some [LinearOrder α] [Zero α] (dist : LatLng α → LatLng α → α)
    (listings : List (Listing α)) (cats : Finset Category) (pos : LatLng α)
    (radiusKm : α) :
    filtered dist listings cats (some pos) radiusKm =
      sortBy distLe (annotatedWithin dist listings cats pos radiusKm) := rfl

/-! ### Claim theorems for the pipeline -/

/-- C1: with a reference point set and a positive `radiusKm`, every element of
the pipeline output carries `distanceKm` computed by the geo-distance function
from the reference point, and no element of the output has
`distanceKm > radiusKm` (listings beyond the radius are dropped). -/
theorem c1_radius_cutoff [LinearOrder α] [Zero α] (dist : LatLng α → LatLng α → α)
    (listings : List (Listing α)) (cats : Finset Category) (pos : LatLng α)
    (radiusKm : α) (hrad : 0 < radiusKm) :
    ∀ r ∈ filtered dist listings cats (some pos) radiusKm,
      r.distanceKm = some (dist pos ⟨r.lat, r.lng⟩) ∧ r.distanceKm.getD 0 ≤ radiusKm := by
  intro r hr
  rw [filtered_some] at hr
  have hr' : r ∈ annotatedWithin dist listings cats pos radiusKm :=
    ((sortBy_perm distLe _).mem_iff).mp hr
  rcases List.mem_filter.mp hr' with ⟨hmem, hle⟩
  have hle' : distOrZero r ≤ radiusKm := of_decide_eq_true hle
  rcases List.mem_map.mp hmem with ⟨l, _, rfl⟩
  exact ⟨rfl, hle'⟩

/-- The sample cafe listing used by concrete witnesses. -/
def cafeA : Listing ℤ :=
  { id := "1"
    slug := "cafe-a"
    name := "Cafe A"
    category := Category.cafe
    address := "1 Road"
    lat := 1
    lng := 2 }

/-- The sample vet listing used by concrete witnesses. -/
def vetB : Listing ℤ :=
  { id := "2"
    slug := "vet-b"
    name := "Vet B"
    category := Category.vet
    address := "2 Road"
    lat := 3
    lng := 4 }

/-- The squared Euclidean distance, used as a concrete, computable
geo-distance in witnesses. -/
def sqDist (a b : LatLng ℤ) : ℤ :=
  (b.lat - a.lat) * (b.lat - a.lat) + (b.lng - a.lng) * (b.lng - a.lng)

/-- Witness for C1 at a concrete input: one cafe listing at the reference
point itself, sqDist distance, radius 1. -/
theorem c1_radius_cutoff_witness :
    ((⟨cafeA, some 0⟩ : RankedListing ℤ).distanceKm =
        some (sqDist ⟨1, 2⟩ ⟨(⟨cafeA, some 0⟩ : RankedListing ℤ).lat,
          (⟨cafeA, some 0⟩ : RankedListing ℤ).lng⟩) ∧
      ((⟨cafeA, some 0⟩ : RankedListing ℤ).distanceKm.getD 0 ≤ (1 : ℤ))) :=
  c1_radius_cutoff sqDist [cafeA] {Category.cafe} ⟨1, 2⟩ 1 (by norm_num)
    ⟨cafeA, some 0⟩ (by decide)

/-- C2: with a reference point set, the pipeline output is sorted in
non-decreasing order of `distanceKm`, and for every tie class (every fixed
distance value `d`) the output lists those elements exactly in their pre-sort
(original collection) order — the sort is stable. -/
theorem c2_sorted_and_stable [LinearOrder α] [Zero α] (dist : LatLng α → LatLng α → α)
    (listings : List (Listing α)) (cats : Finset Category) (pos : LatLng α)
    (radiusKm : α) :
    (filtered dist listings cats (some pos) radiusKm).Pairwise
        (fun a b => distOrZero a ≤ distOrZero b) ∧
      ∀ d : α,
        (filtered dist listings cats (some pos) radiusKm).filter
            (fun r => decide (distOrZero r = d)) =
          (annotatedWithin dist listings cats pos radiusKm).filter
            (fun r => decide (distOrZero r = d)) := by
  have htrans : ∀ a b c : RankedListing α,
      distLe a b = true → distLe b c = true → distLe a c = true := by
    intro a b c hab hbc
    exact decide_eq_true (le_trans (of_decide_eq_true hab) (of_decide_eq_true hbc))
  have htotal : ∀ a b : RankedListing α, distLe a b = false → distLe b a = true := by
    intro a b hab
    have : ¬ distOrZero a ≤ distOrZero b := of_decide_eq_false hab
    exact decide_eq_true (le_of_not_le this)
  constructor
  · rw [filtered_some]
    exact (sortBy_pairwise distLe htrans htotal _).imp (fun h => of_decide_eq_true h)
  · intro d
    rw [filtered_some]
    exact sortBy_filter_tied distLe (fun r => decide (distOrZero r = d))
      (fun a b ha hb => by
        have ha' := of_decide_eq_true ha
        have hb' := of_decide_eq_true hb
        exact decide_eq_true (le_of_eq (ha'.trans hb'.symm))) _

/-- C3: when the search query is non-empty after trimming, the final output is
exactly the filter of the distance-sorted output by the case-insensitive
substring match against name/address; filtering yields a subsequence, so the
relative order is unchanged. -/
theorem c3_search_is_order_preserving_filter [LinearOrder α] [Zero α]
    (dist : LatLng α → LatLng α → α) (listings : List (Listing α))
    (cats : Finset Category) (userPos : Option (LatLng α)) (radiusKm : α)
    (appliedQuery : String) (hq : (jsTrim appliedQuery).data ≠ []) :
    searchFiltered appliedQuery (filtered dist listings cats userPos radiusKm) =
        (filtered dist listings cats userPos radiusKm).filter
          (searchMatch (lowerString (jsTrim appliedQuery))) ∧
      (searchFiltered appliedQuery
          (filtered dist listings cats userPos radiusKm)).Sublist
        (filtered dist listings cats userPos radiusKm) := by
  have hne : (lowerString (jsTrim appliedQuery)).data.isEmpty = false := by
    cases h : (jsTrim appliedQuery).data with
    | nil => exact absurd h hq
    | cons c cs => simp [lowerString, h]
  constructor
  · rw [searchFiltered]
    simp only [hne, Bool.false_eq_true, if_false]
  · rw [searchFiltered]
    simp only [hne, Bool.false_eq_true, if_false]
    exact List.filter_sublist _

/-- Witness for C3 at a concrete input: query `"Vet"`, two listings, no
reference point. -/
theorem c3_search_witness :
    searchFiltered "Vet" (filtered sqDist [cafeA, vetB] {Category.cafe, Category.vet} none 5) =
        (filtered sqDist [cafeA, vetB] {Category.cafe, Category.vet} none 5).filter
          (searchMatch (lowerString (jsTrim "Vet"))) ∧
      (searchFiltered "Vet"
          (filtered sqDist [cafeA, vetB] {Category.cafe, Category.vet} none 5)).Sublist
        (filtered sqDist [cafeA, vetB] {Category.cafe, Category.vet} none 5) :=
  c3_search_is_order_preserving_filter sqDist [cafeA, vetB] {Category.cafe, Category.vet}
    none 5 "Vet" (by decide)

/-- C4: with no reference point, the output is the category-filtered listings
in original collection order, all annotated with `distanceKm = null`, and the
value of `radiusKm` has no effect on the result. -/
theorem c4_no_reference_point [LinearOrder α] [Zero α] (dist : LatLng α → LatLng α → α)
    (listings : List (Listing α)) (cats : Finset Category) (radiusKm r₁ r₂ : α) :
    filtered dist listings cats none radiusKm =
        (listings.filter (fun l => decide (l.category ∈ cats))).map
          (fun l => (⟨l, none⟩ : RankedListing α)) ∧
      filtered dist listings cats none r₁ = filtered dist listings cats none r₂ :=
  ⟨rfl, rfl⟩

/-- C6: the feature collection handed to the map adapter has exactly one point
feature per element of the pipeline output (`searchFiltered`), in the same
order, with geometry coordinates `[lng, lat]` and a property bag carrying id,
slug, name, category and address of that listing — both views are driven by
the identical sequence. -/
theorem c6_geojson_mirrors_results [LinearOrder α] [Zero α]
    (dist : LatLng α → LatLng α → α) (listings : List (Listing α))
    (cats : Finset Category) (userPos : Option (LatLng α)) (radiusKm : α)
    (q : String) :
    (geojson (searchFiltered q (filtered dist listings cats userPos radiusKm))).length =
        (searchFiltered q (filtered dist listings cats userPos radiusKm)).length ∧
      (geojson (searchFiltered q (filtered dist listings cats userPos radiusKm))).map
          Feature.coordinates =
        (searchFiltered q (filtered dist listings cats userPos radiusKm)).map
          (fun l => (l.lng, l.lat)) ∧
      (geojson (searchFiltered q (filtered dist listings cats userPos radiusKm))).map
          (fun f => (f.id, f.slug, f.name, f.category, f.address)) =
        (searchFiltered q (filtered dist listings cats userPos radiusKm)).map
          (fun l => (l.id, l.slug, l.name, l.category, l.address)) := by
  refine ⟨?_, ?_, ?_⟩
  · simp [geojson]
  · simp only [geojson, List.map_map]
    exact List.map_congr_left (fun a _ => rfl)
  · simp only [geojson, List.map_map]
    exact List.map_congr_left (fun a _ => rfl)

/-! ### The geo-distance function (`haversineKm`)

The source computes, over IEEE doubles:

```
const R = 6371;
const dLat = ((b.lat - a.lat) * Math.PI) / 180;
const dLng = ((b.lng - a.lng) * Math.PI) / 180;
const lat1 = (a.lat * Math.PI) / 180;
const lat2 = (b.lat * Math.PI) / 180;
const x = Math.sin(dLat / 2) ** 2 + Math.sin(dLng / 2) ** 2 * Math.cos(lat1) * Math.cos(lat2);
return 2 * R * Math.asin(Math.sqrt(x));
```

We model it over the real numbers, which is the domain the specification
states ("all real latitude/longitude pairs", symmetry "within floating-point
tolerance"). -/

/-- The haversine great-circle distance of `MapDirectory.tsx`, over ℝ. -/
noncomputable def haversineKm (a b : LatLng ℝ) : ℝ :=
  let R : ℝ := 6371
  let dLat : ℝ := (b.lat - a.lat) * Real.pi / 180
  let dLng : ℝ := (b.lng - a.lng) * Real.pi / 180
  let lat1 : ℝ := a.lat * Real.pi / 180
  let lat2 : ℝ := b.lat * Real.pi / 180
  let x : ℝ :=
    Real.sin (dLat / 2) ^ 2 + Real.sin (dLng / 2) ^ 2 * Real.cos lat1 * Real.cos lat2
  2 * R * Real.arcsin (Real.sqrt x)

theorem sin_half_sq_symm (u v : ℝ) :
    Real.sin ((u - v) * Real.pi / 180 / 2) ^ 2 =
      Real.sin ((v - u) * Real.pi / 180 / 2) ^ 2 := by
  have h : (u - v) * Real.pi / 180 / 2 = -((v - u) * Real.pi / 180 / 2) := by ring
  rw [h, Real.sin_neg, neg_sq]

/-- C5: the geo-distance function is symmetric, non-negative, and zero on
equal coordinate pairs, over its stated domain of all real
latitude/longitude pairs. -/
theorem c5_haversine_symm_nonneg_self (a b : LatLng ℝ) :
    haversineKm a b = haversineKm b a ∧ 0 ≤ haversineKm a b ∧ haversineKm a a = 0 := by
  refine ⟨?_, ?_, ?_⟩
  · show (2 : ℝ) * 6371 * _ = 2 * 6371 * _
    congr 2
    rw [sin_half_sq_symm b.lat a.lat, sin_half_sq_symm b.lng a.lng]
    ring_nf
  · show (0 : ℝ) ≤ 2 * 6371 *
      Real.arcsin (Real.sqrt (Real.sin ((b.lat - a.lat) * Real.pi / 180 / 2) ^ 2 +
        Real.sin ((b.lng - a.lng) * Real.pi / 180 / 2) ^ 2 *
          Real.cos (a.lat * Real.pi / 180) * Real.cos (b.lat * Real.pi / 180)))
    exact mul_nonneg (by norm_num) (Real.arcsin_nonneg.mpr (Real.sqrt_nonneg _))
  · show (2 : ℝ) * 6371 * Real.arcsin (Real.sqrt _) = 0
    have hz : (a.lat - a.lat) * Real.pi / 180 / 2 = 0 := by ring
    have hz' : (a.lng - a.lng) * Real.pi / 180 / 2 = 0 := by ring
    rw [hz, hz', Real.sin_zero]
    norm_num

/-! ### Slug assignment (`src/scripts/addSlugs.mjs`)

```
function slugify(str) {
  return str
    .toLowerCase()
    .trim()
    .replace(/&/g, " and ")
    .replace(/[^a-z0-9]+/g, "-")
    .replace(/^-+|-+$/g, "");
}
const used = new Map(); // slug -> count
const out = data.map((item) => {
  const base = slugify(item.name || "place");
  const count = used.get(base) || 0;
  used.set(base, count + 1);
  const slug = count === 0 ? base : `${base}-${count + 1}`;
  return { ...item, slug };
});
```

The regex steps are modelled character by character.  The replacement of every
maximal run matching `[^a-z0-9]+` by one `-` is implemented as: map every
non-`[a-z0-9]` character to `-`, then collapse consecutive `-` — equivalent
because `[a-z0-9]` characters are never `-`. -/

/-- A character matching the regex class `[a-z0-9]`. -/
def isSlugChar (c : Char) : Bool :=
  decide (('a' ≤ c ∧ c ≤ 'z') ∨ ('0' ≤ c ∧ c ≤ '9'))

/-- `.replace(/&/g, " and ")`. -/
def replaceAmp : List Char → List Char
  | [] => []
  | c :: cs =>
      if c = '&' then ' ' :: 'a' :: 'n' :: 'd' :: ' ' :: replaceAmp cs
      else c :: replaceAmp cs

/-- Collapse consecutive `-` characters to a single `-`. -/
def squashDashes : List Char → List Char
  | [] => []
  | [c] => [c]
  | c :: d :: rest =>
      if c = '-' ∧ d = '-' then squashDashes (d :: rest)
      else c :: squashDashes (d :: rest)

/-- `.replace(/[^a-z0-9]+/g, "-")`. -/
def collapseNonSlug (s : List Char) : List Char :=
  squashDashes (s.map (fun c => if isSlugChar c then c else '-'))

/-- `.replace(/^-+|-+$/g, "")`: strip leading and trailing dashes. -/
def stripDashes (s : List Char) : List Char :=
  ((s.dropWhile (· == '-')).reverse.dropWhile (· == '-')).reverse

/-- `slugify` of `addSlugs.mjs`. -/
def slugify (s : String) : String :=
  ⟨stripDashes (collapseNonSlug (replaceAmp (trimChars (s.data.map lowerChar))))⟩

/-- `slugify(item.name || "place")`: an empty (or missing) name falls back to
`"place"`. -/
def slugBase (name : String) : String :=
  slugify (if name = "" then "place" else name)

/-- The decimal digit character for `d < 10`. -/
def digitChar (d : Nat) : Char := Char.ofNat (48 + d)

/-- Decimal digits of `n`, most significant first, with explicit fuel so the
definition is structurally recursive (the fuel `n + 1` always suffices). -/
def natToDigitsAux : Nat → Nat → List Char
  | 0, _ => []
  | fuel + 1, n =>
      if n < 10 then [digitChar n]
      else natToDigitsAux fuel (n / 10) ++ [digitChar (n % 10)]

/-- Decimal digits of `n`, most significant first. -/
def natToDigits (n : Nat) : List Char := natToDigitsAux (n + 1) n

/-- Decimal numeral of `n`, modelling the JS template `${count + 1}`. -/
def natToString (n : Nat) : String := ⟨natToDigits n⟩

/-- The slug given to an item whose base slug has already occurred `count`
times: `count === 0 ? base : `${base}-${count + 1}``. -/
def mkSlug (base : String) (count : Nat) : String :=
  if count = 0 then base else base ++ "-" ++ natToString (count + 1)

/-- The loop of `addSlugs.mjs` over the item names, with the `used` map as a
counting function. -/
def addSlugsAux : List String → (String → Nat) → List String
  | [], _ => []
  | name :: rest, used =>
      let base := slugBase name
      mkSlug base (used base) ::
        addSlugsAux rest (fun b => if b = base then used base + 1 else used b)

/-- The slug column produced by `addSlugs.mjs` for the given item names. -/
def assignSlugs (names : List String) : List String :=
  addSlugsAux names (fun _ => 0)

/-! ### Decimal numeral lemmas -/

/-- The numeric value of a digit character. -/
def digitVal (c : Char) : Nat := c.toNat - 48

theorem digitVal_digitChar : ∀ d < 10, digitVal (digitChar d) = d := by decide

theorem digitChar_ne_dash : ∀ d < 10, digitChar d ≠ '-' := by decide

theorem natToDigitsAux_congr : ∀ f₁ f₂ n : Nat, n < f₁ → n < f₂ →
    natToDigitsAux f₁ n = natToDigitsAux f₂ n := by
  intro f₁
  induction f₁ with
  | zero => intro f₂ n h _; omega
  | succ f₁ ih =>
      intro f₂ n h₁ h₂
      cases f₂ with
      | zero => omega
      | succ f₂ =>
          by_cases h10 : n < 10
          · simp [natToDigitsAux, h10]
          · have hdiv : n / 10 < n := Nat.div_lt_self (by omega) (by norm_num)
            simp only [natToDigitsAux, if_neg h10]
            rw [ih f₂ (n / 10) (by omega) (by omega)]

theorem natToDigits_eq (n : Nat) :
    natToDigits n =
      if n < 10 then [digitChar n]
      else natToDigits (n / 10) ++ [digitChar (n % 10)] := by
  by_cases h10 : n < 10
  · simp [natToDigits, natToDigitsAux, h10]
  · have hdiv : n / 10 < n := Nat.div_lt_self (by omega) (by norm_num)
    simp only [natToDigits, natToDigitsAux, if_neg h10]
    rw [natToDigitsAux_congr n (n / 10 + 1) (n / 10) (by omega) (by omega)]
    congr 1

theorem natToDigits_foldl (n : Nat) : ∀ acc : Nat,
    (natToDigits n).foldl (fun acc c => acc * 10 + digitVal c) acc =
      acc * 10 ^ (natToDigits n).length + n := by
  induction n using Nat.strong_induction_on with
  | _ n ih =>
      intro acc
      by_cases h10 : n < 10
      · rw [natToDigits_eq n, if_pos h10]
        simp [List.foldl, digitVal_digitChar n h10]
      · have hdiv : n / 10 < n := Nat.div_lt_self (by omega) (by norm_num)
        rw [natToDigits_eq n, if_neg h10, List.foldl_append, ih (n / 10) hdiv acc]
        simp only [List.foldl, List.length_append, List.length_singleton]
        rw [digitVal_digitChar (n % 10) (Nat.mod_lt n (by norm_num))]
        have hmod : n / 10 * 10 + n % 10 = n := by omega
        calc (acc * 10 ^ (natToDigits (n / 10)).length + n / 10) * 10 + n % 10
            = acc * (10 ^ (natToDigits (n / 10)).length * 10) +
              (n / 10 * 10 + n % 10) := by ring
          _ = acc * 10 ^ ((natToDigits (n / 10)).length + 1) + n := by
              rw [hmod, pow_succ]

theorem natToDigits_inj {m n : Nat} (h : natToDigits m = natToDigits n) : m = n := by
  have hm := natToDigits_foldl m 0
  have hn := natToDigits_foldl n 0
  rw [h] at hm
  simp only [zero_mul, zero_add] at hm hn
  exact hm.symm.trans hn

theorem natToDigits_ne_nil (n : Nat) : natToDigits n ≠ [] := by
  rw [natToDigits_eq n]
  by_cases h10 : n < 10 <;> simp [h10]

theorem natToDigits_ne_dash (n : Nat) : ∀ c ∈ natToDigits n, c ≠ '-' := by
  induction n using Nat.strong_induction_on with
  | _ n ih =>
      intro c hc
      rw [natToDigits_eq n] at hc
      by_cases h10 : n < 10
      · rw [if_pos h10] at hc
        simp only [List.mem_singleton] at hc
        subst hc
        exact digitChar_ne_dash n h10
      · rw [if_neg h10] at hc
        rcases List.mem_append.mp hc with h | h
        · exact ih (n / 10) (Nat.div_lt_self (by omega) (by norm_num)) c h
        · simp only [List.mem_singleton] at h
          subst h
          exact digitChar_ne_dash (n % 10) (Nat.mod_lt n (by norm_num))

/-- Splitting a character list at a `-` whose right part is dash-free is
unambiguous.  (Here the dash-free parts come first.) -/
theorem dashfree_append_inj : ∀ u₁ u₂ v₁ v₂ : List Char,
    (∀ c ∈ u₁, c ≠ '-') → (∀ c ∈ u₂, c ≠ '-') →
    u₁ ++ '-' :: v₁ = u₂ ++ '-' :: v₂ → u₁ = u₂ ∧ v₁ = v₂ := by
  intro u₁
  induction u₁ with
  | nil =>
      intro u₂ v₁ v₂ _ h₂ heq
      cases u₂ with
      | nil => simpa using heq
      | cons d u₂' =>
          simp only [List.nil_append, List.cons_append, List.cons.injEq] at heq
          exact absurd heq.1.symm (h₂ d (by simp))
  | cons c u₁' ih =>
      intro u₂ v₁ v₂ h₁ h₂ heq
      cases u₂ with
      | nil =>
          simp only [List.nil_append, List.cons_append, List.cons.injEq] at heq
          exact absurd heq.1 (h₁ c (by simp))
      | cons d u₂' =>
          simp only [List.cons_append, List.cons.injEq] at heq
          rcases heq with ⟨hcd, heq'⟩
          rcases ih u₂' v₁ v₂ (fun x hx => h₁ x (List.mem_cons_of_mem c hx))
            (fun x hx => h₂ x (List.mem_cons_of_mem d hx)) heq' with ⟨hu, hv⟩
          exact ⟨by rw [hcd, hu], hv⟩

theorem dash_data : ("-" : String).data = ['-'] := rfl

/-- A string of the form `x ++ "-" ++ numeral` determines `x` and the
numeral: the separating dash is the last dash of the string. -/
theorem append_dash_numeral_inj {x₁ x₂ : String} {n₁ n₂ : Nat}
    (h : x₁ ++ "-" ++ natToString n₁ = x₂ ++ "-" ++ natToString n₂) :
    x₁ = x₂ ∧ n₁ = n₂ := by
  have hdata : x₁.data ++ '-' :: natToDigits n₁ = x₂.data ++ '-' :: natToDigits n₂ := by
    have h' := congrArg String.data h
    simpa [String.data_append, dash_data, List.append_assoc] using h'
  have hrev := congrArg List.reverse hdata
  rw [List.reverse_append, List.reverse_append, List.reverse_cons, List.reverse_cons,
    List.append_assoc, List.append_assoc, List.singleton_append, List.singleton_append]
    at hrev
  rcases dashfree_append_inj _ _ _ _
    (fun c hc => natToDigits_ne_dash n₁ c (List.mem_reverse.mp hc))
    (fun c hc => natToDigits_ne_dash n₂ c (List.mem_reverse.mp hc)) hrev with ⟨hd, hx⟩
  exact ⟨String.ext (List.reverse_injective hx), natToDigits_inj (List.reverse_injective hd)⟩

theorem natToString_length_pos (n : Nat) : 1 ≤ (natToString n).length :=
  List.length_pos.mpr (natToDigits_ne_nil n)

theorem mkSlug_zero (b : String) : mkSlug b 0 = b := rfl

theorem mkSlug_pos (b : String) {c : Nat} (h : c ≠ 0) :
    mkSlug b c = b ++ "-" ++ natToString (c + 1) := if_neg h

theorem self_ne_dash_numeral (b : String) (k : Nat) :
    b ≠ b ++ "-" ++ natToString k := by
  intro h
  have hlen := congrArg String.length h
  rw [String.length_append, String.length_append] at hlen
  have h1 := natToString_length_pos k
  have h2 : ("-" : String).length = 1 := rfl
  omega

/-! ### Characterisation of the slug column -/

/-- Closed form of the `addSlugs.mjs` loop: the slug of the item at a given
position is `mkSlug` of its base and the number of earlier items with the
same base (`prev` accumulates the bases already seen). -/
def slugsSpec : List String → List String → List String
  | _, [] => []
  | prev, b :: bs => mkSlug b (prev.count b) :: slugsSpec (prev ++ [b]) bs

theorem addSlugsAux_eq : ∀ names prev : List String,
    addSlugsAux names (fun b => prev.count b) = slugsSpec prev (names.map slugBase) := by
  intro names
  induction names with
  | nil => intro prev; rfl
  | cons name rest ih =>
      intro prev
      show mkSlug (slugBase name) (prev.count (slugBase name)) ::
          addSlugsAux rest
            (fun b => if b = slugBase name then prev.count (slugBase name) + 1
              else prev.count b) =
        mkSlug (slugBase name) (prev.count (slugBase name)) ::
          slugsSpec (prev ++ [slugBase name]) (rest.map slugBase)
      congr 1
      have hfun : (fun b => if b = slugBase name then prev.count (slugBase name) + 1
          else prev.count b) = (fun b => (prev ++ [slugBase name]).count b) := by
        funext b
        by_cases hb : b = slugBase name
        · subst hb
          simp [List.count_append, List.count_singleton]
        · simp [List.count_append, List.count_singleton, hb, Ne.symm hb]
      rw [hfun, ih (prev ++ [slugBase name])]

theorem assignSlugs_eq (names : List String) :
    assignSlugs names = slugsSpec [] (names.map slugBase) := by
  have h : (fun _ : String => 0) = (fun b => List.count b ([] : List String)) := by
    funext b
    simp
  show addSlugsAux names (fun _ => 0) = _
  rw [h, addSlugsAux_eq]

theorem slugsSpec_length : ∀ bs prev : List String,
    (slugsSpec prev bs).length = bs.length := by
  intro bs
  induction bs with
  | nil => intro prev; rfl
  | cons b bs ih => intro prev; simp [slugsSpec, ih]

theorem slugsSpec_getElem? : ∀ (bs prev : List String) (i : Nat) (b : String),
    bs[i]? = some b →
    (slugsSpec prev bs)[i]? = some (mkSlug b ((prev ++ bs.take i).count b)) := by
  intro bs
  induction bs with
  | nil => intro prev i b h; simp at h
  | cons b₀ bs ih =>
      intro prev i b h
      cases i with
      | zero =>
          rw [List.getElem?_cons_zero] at h
          injection h with h
          subst h
          simp [slugsSpec]
      | succ i =>
          rw [List.getElem?_cons_succ] at h
          show (mkSlug b₀ (prev.count b₀) :: slugsSpec (prev ++ [b₀]) bs)[i + 1]? = _
          rw [List.getElem?_cons_succ, ih (prev ++ [b₀]) i b h, List.take_succ_cons,
            List.append_assoc, List.singleton_append]

theorem count_take_lt {bs : List String} {i j : Nat} {b : String}
    (hij : i < j) (hb : bs[i]? = some b) :
    (bs.take i).count b < (bs.take j).count b := by
  have hsplit : bs.take j = bs.take i ++ (bs.drop i).take (j - i) := by
    rw [← List.take_add]
    congr 1
    omega
  rw [hsplit, List.count_append]
  have h0 : ((bs.drop i).take (j - i))[0]? = some b := by
    rw [List.getElem?_take, if_pos (by omega), List.getElem?_drop]
    simpa using hb
  have hmem : b ∈ (bs.drop i).take (j - i) := List.mem_iff_getElem?.mpr ⟨0, h0⟩
  have hpos : 0 < ((bs.drop i).take (j - i)).count b := List.count_pos_iff.mpr hmem
  omega

/-- C7 counterexample: for the names `["foo 2", "foo", "foo"]` the script
produces the slug column `["foo-2", "foo", "foo-2"]` — the suffix given to
the duplicated base `"foo"` collides with the base slug of `"foo 2"`, so the
slug field is not unique across the collection. -/
theorem c7_counterexample :
    assignSlugs ["foo 2", "foo", "foo"] = ["foo-2", "foo", "foo-2"] ∧
      ¬ (assignSlugs ["foo 2", "foo", "foo"]).Nodup := by decide

/-- C7 (amended): the slug-assignment transform produces pairwise-distinct
slugs for every input collection in which no name's base slug equals another
name's base slug followed by `-k` for a numeral `k ≥ 2` (the only collision
the suffixing scheme can produce, as the counterexample shows). -/
theorem c7_amended_slug_unique (names : List String)
    (H : ∀ n₁ ∈ names, ∀ n₂ ∈ names, ∀ k : Nat,
        slugBase n₁ ≠ slugBase n₂ ++ "-" ++ natToString (k + 2)) :
    (assignSlugs names).Nodup := by
  rw [assignSlugs_eq]
  set bs := names.map slugBase with hbs
  have hlen : (slugsSpec [] bs).length = bs.length := slugsSpec_length bs []
  refine List.pairwise_iff_getElem.mpr ?_
  intro i j hi hj hij heq
  have hi2 : i < bs.length := by omega
  have hj2 : j < bs.length := by omega
  have hgi : bs[i]? = some bs[i] := List.getElem?_eq_getElem hi2
  have hgj : bs[j]? = some bs[j] := List.getElem?_eq_getElem hj2
  have hsi := slugsSpec_getElem? bs [] i bs[i] hgi
  have hsj := slugsSpec_getElem? bs [] j bs[j] hgj
  rw [List.nil_append] at hsi hsj
  have hl_i : (slugsSpec [] bs)[i] = mkSlug bs[i] ((bs.take i).count bs[i]) := by
    have h' := (List.getElem?_eq_getElem hi).symm.trans hsi
    exact Option.some_injective _ h'
  have hl_j : (slugsSpec [] bs)[j] = mkSlug bs[j] ((bs.take j).count bs[j]) := by
    have h' := (List.getElem?_eq_getElem hj).symm.trans hsj
    exact Option.some_injective _ h'
  rw [hl_i, hl_j] at heq
  obtain ⟨n₁, hn₁, hsn₁⟩ : ∃ n, names[i]? = some n ∧ slugBase n = bs[i] := by
    have h' : (names.map slugBase)[i]? = some bs[i] := hgi
    rw [List.getElem?_map] at h'
    cases hni : names[i]? with
    | none => rw [hni] at h'; simp at h'
    | some n =>
        rw [hni] at h'
        simp only [Option.map_some'] at h'
        exact ⟨n, rfl, Option.some_injective _ h'⟩
  obtain ⟨n₂, hn₂, hsn₂⟩ : ∃ n, names[j]? = some n ∧ slugBase n = bs[j] := by
    have h' : (names.map slugBase)[j]? = some bs[j] := hgj
    rw [List.getElem?_map] at h'
    cases hnj : names[j]? with
    | none => rw [hnj] at h'; simp at h'
    | some n =>
        rw [hnj] at h'
        simp only [Option.map_some'] at h'
        exact ⟨n, rfl, Option.some_injective _ h'⟩
  have hmem₁ : n₁ ∈ names := List.mem_iff_getElem?.mpr ⟨i, hn₁⟩
  have hmem₂ : n₂ ∈ names := List.mem_iff_getElem?.mpr ⟨j, hn₂⟩
  have hcc : bs[i] = bs[j] → (bs.take i).count bs[i] < (bs.take j).count bs[j] := by
    intro hb
    have := count_take_lt hij hgi
    rw [hb] at this ⊢
    exact this
  by_cases h1 : (bs.take i).count bs[i] = 0 <;>
    by_cases h2 : (bs.take j).count bs[j] = 0
  · rw [h1, h2, mkSlug_zero, mkSlug_zero] at heq
    have := hcc heq
    omega
  · rw [h1, mkSlug_zero, mkSlug_pos _ h2] at heq
    have hk : (bs.take j).count bs[j] - 1 + 2 = (bs.take j).count bs[j] + 1 := by omega
    have hH := H n₁ hmem₁ n₂ hmem₂ ((bs.take j).count bs[j] - 1)
    rw [hsn₁, hsn₂, hk] at hH
    exact hH heq
  · rw [h2, mkSlug_zero, mkSlug_pos _ h1] at heq
    have hk : (bs.take i).count bs[i] - 1 + 2 = (bs.take i).count bs[i] + 1 := by omega
    have hH := H n₂ hmem₂ n₁ hmem₁ ((bs.take i).count bs[i] - 1)
    rw [hsn₁, hsn₂, hk] at hH
    exact hH heq.symm
  · rw [mkSlug_pos _ h1, mkSlug_pos _ h2] at heq
    rcases append_dash_numeral_inj heq with ⟨hb, hc⟩
    have := hcc hb
    omega

/-- Witness for the amended C7 at a concrete input with a duplicated name:
the hypothesis holds because every base slug is shorter than any base slug
extended by a dash and a numeral. -/
theorem c7_amended_slug_unique_witness :
    (assignSlugs ["Dog Cafe", "Dog Cafe", "Cat Hotel"]).Nodup := by
  apply c7_amended_slug_unique
  intro n₁ h₁ n₂ h₂ k heq
  have hlen := congrArg String.length heq
  rw [String.length_append, String.length_append] at hlen
  have hk := natToString_length_pos (k + 2)
  have hdash : ("-" : String).length = 1 := rfl
  have hd : (slugBase "Dog Cafe").length = 8 := by decide
  have hc : (slugBase "Cat Hotel").length = 9 := by decide
  simp only [List.mem_cons, List.not_mem_nil, or_false] at h₁ h₂
  rcases h₁ with rfl | rfl | rfl <;> rcases h₂ with rfl | rfl | rfl <;> omega

/-! ### Legacy id-route redirect (`OldIdRedirectPage`)

```
function getById(id: string) {
  return getAllListings().find((l) => l.id === id);
}
export default function OldIdRedirectPage({ params }: { params: { id: string } }) {
  const listing = getById(params.id);
  if (!listing) notFound();
  redirect(`/listing/${listing.slug}`);
}
``` -/

/-- `getById`: first listing whose `id` equals the requested id. -/
def getById (listings : List (Listing α)) (id : String) : Option (Listing α) :=
  listings.find? (fun l => decide (l.id = id))

/-- The legacy id route: `some target` models `redirect(target)`, `none`
models `notFound()`. -/
def oldIdRedirect (listings : List (Listing α)) (id : String) : Option String :=
  (getById listings id).map (fun l => "/listing/" ++ l.slug)

/-- C8: the legacy id-based route resolves the listing whose `id` equals the
requested id and redirects to that listing's slug route `/listing/<slug>`;
when no listing has the requested id it reports not-found instead of
redirecting. -/
theorem c8_old_id_redirect (listings : List (Listing α)) (id : String) :
    ((∃ l ∈ listings, l.id = id) →
        ∃ l, getById listings id = some l ∧ l ∈ listings ∧ l.id = id ∧
          oldIdRedirect listings id = some ("/listing/" ++ l.slug)) ∧
      ((∀ l ∈ listings, l.id ≠ id) → oldIdRedirect listings id = none) := by
  constructor
  · intro hex
    cases hfind : listings.find? (fun l => decide (l.id = id)) with
    | none =>
        rcases hex with ⟨l, hl, hid⟩
        have := List.find?_eq_none.mp hfind l hl
        exact absurd (decide_eq_true hid) this
    | some l =>
        have hmem := List.mem_of_find?_eq_some hfind
        have hp := List.find?_some hfind
        refine ⟨l, hfind, hmem, of_decide_eq_true hp, ?_⟩
        show (listings.find? (fun l => decide (l.id = id))).map _ = _
        rw [hfind]
        rfl
  · intro hnone
    show (listings.find? (fun l => decide (l.id = id))).map _ = _
    rw [List.find?_eq_none.mpr (fun l hl => by simpa using hnone l hl)]
    rfl

/-- Witness for C8 at a concrete input: id `"2"` resolves to the vet listing
and redirects to `/listing/vet-b`. -/
theorem c8_old_id_redirect_witness :
    ∃ l, getById [cafeA, vetB] "2" = some l ∧ l ∈ [cafeA, vetB] ∧ l.id = "2" ∧
      oldIdRedirect [cafeA, vetB] "2" = some ("/listing/" ++ l.slug) :=
  (c8_old_id_redirect [cafeA, vetB] "2").1 ⟨vetB, by decide, by decide⟩

/-! ### Park verification (`src/scripts/verify_parks_serpapi.mjs`)

`decideFromText` classifies an evidence text by keyword matching (negative
keywords override positive ones); `main` loops over the park records,
fetching web evidence per record inside a `try`/`catch` so that one failing
record is annotated and the batch continues.  The SerpAPI call together with
`pickEvidence` (which only flattens the returned JSON into an evidence text
and a top link) is modelled by the oracle parameter `fetch : Park → Except
String SerpOutcome`: `.error msg` is a thrown exception with message `msg`,
`.ok` the flattened search result.  The wall-clock `checkedAt` timestamp and
the `sleep` pacing are omitted (no observable effect on any record). -/

/-- The `POSITIVE` keyword list. -/
def POSITIVE : List String :=
  ["dog friendly", "dogs allowed", "pets allowed", "pet friendly",
    "bring your dog", "dogs are allowed", "dogs are welcome", "dog run",
    "off-leash", "off leash"]

/-- The `NEGATIVE` keyword list. -/
def NEGATIVE : List String :=
  ["no dogs", "dogs are not allowed", "dogs not allowed",
    "not allowed to bring dogs", "not dog friendly", "pets are not allowed",
    "dogs prohibited", "prohibited", "ban dogs", "banned",
    "nature reserve no dogs", "no dogs in nature reserves"]

/-- The verdict record returned by `decideFromText`. -/
structure Decision where
  verdict : String
  confidence : String
  reason : Option String := none
deriving DecidableEq

/-- `decideFromText`: a negative keyword match overrides everything; else the
first matching positive keyword yields `dog_friendly`; else `unknown`. -/
def decideFromText (text : String) : Decision :=
  let t := lowerString text
  if NEGATIVE.any (fun k => strIncludes t k) then
    { verdict := "not_dog_friendly", confidence := "high" }
  else
    match POSITIVE.find? (fun k => strIncludes t k) with
    | some hit =>
        { verdict := "dog_friendly", confidence := "medium", reason := some ("matched:" ++ hit) }
    | none => { verdict := "unknown", confidence := "low" }

/-- A park/listing record as the script reads it (`category` is a plain
string in the JSON; optional fields may be absent). -/
structure Park where
  id : String
  name : String
  category : String
  address : Option String := none
  verificationStatus : Option String := none
  verifiedBy : Option String := none
  parkVerification : Option (String × String × String × String) := none
deriving DecidableEq

/-- One row of the CSV report. -/
structure ReportRow where
  id : String
  name : String
  address : String
  verdict : String
  confidence : String
  setVerificationStatus : String
  reason : String
  query : String
  topLink : String
deriving DecidableEq

/-- `buildQuery(park.name)`. -/
def buildQuery (name : String) : String :=
  "is " ++ name ++ " park dog friendly? Singapore"

/-- The flattened outcome of one successful SerpAPI call: the combined
evidence text and the first organic link. -/
structure SerpOutcome where
  evidenceText : String
  topLink : String
deriving DecidableEq

/-- The accumulated state of the `main` loop. -/
structure BatchState where
  updatedListings : List Park
  reportRows : List ReportRow
  verifiedCount : Nat
  notCount : Nat
  unknownCount : Nat
  errors : Nat
deriving DecidableEq

/-- The new `verificationStatus` chosen in the `ok` branch of the loop:
`"verified"` for a `dog_friendly` verdict, `"needs_check"` for
`not_dog_friendly`, else the prior value (`?? "needs_check"`). -/
def newStatusFor (park : Park) (verdict : String) : String :=
  if verdict = "dog_friendly" then "verified"
  else if verdict = "not_dog_friendly" then "needs_check"
  else park.verificationStatus.getD "needs_check"

/-- The report row written in the `catch` branch. -/
def errorRow (park : Park) (msg : String) : ReportRow :=
  { id := park.id
    name := park.name
    address := park.address.getD ""
    verdict := "error"
    confidence := "low"
    setVerificationStatus := park.verificationStatus.getD "needs_check"
    reason := msg
    query := buildQuery park.name
    topLink := "" }

/-- The report row written in the `ok` branch. -/
def okRow (park : Park) (d : Decision) (newStatus : String) (topLink : String) : ReportRow :=
  { id := park.id
    name := park.name
    address := park.address.getD ""
    verdict := d.verdict
    confidence := d.confidence
    setVerificationStatus := newStatus
    reason := d.reason.getD ""
    query := buildQuery park.name
    topLink := topLink }

/-- `updatedListings.findIndex((l) => l.id === park.id)` followed by a field
update at that index: update the first record with the given id. -/
def updateFirst (f : Park → Park) (targetId : String) : List Park → List Park
  | [] => []
  | l :: ls => if l.id = targetId then f l :: ls else l :: updateFirst f targetId ls

/-- One iteration of the `main` loop over one park, branching on the oracle
outcome exactly as the `try`/`catch` does. -/
def stepPark (fetch : Park → Except String SerpOutcome) (st : BatchState)
    (park : Park) : BatchState :=
  match fetch park with
  | .error msg =>
      { st with
        errors := st.errors + 1
        reportRows := st.reportRows ++ [errorRow park msg] }
  | .ok out =>
      let d := decideFromText out.evidenceText
      let newStatus := newStatusFor park d.verdict
      let newVerifiedBy :=
        if d.verdict = "dog_friendly" then "google_search_snippet"
        else park.verifiedBy.getD ""
      let st1 :=
        if d.verdict = "dog_friendly" then { st with verifiedCount := st.verifiedCount + 1 }
        else if d.verdict = "not_dog_friendly" then { st with notCount := st.notCount + 1 }
        else { st with unknownCount := st.unknownCount + 1 }
      { st1 with
        updatedListings :=
          updateFirst
            (fun l =>
              { l with
                verificationStatus := some newStatus
                verifiedBy := some newVerifiedBy
                parkVerification :=
                  some (buildQuery park.name, d.verdict, d.confidence, d.reason.getD "") })
            park.id st1.updatedListings
        reportRows := st1.reportRows ++ [okRow park d newStatus out.topLink] }

/-- `parks = listings.filter((l) => l?.category === "park" && l?.name)`. -/
def parksOf (listings : List Park) : List Park :=
  listings.filter (fun l => decide (l.category = "park") && decide (l.name ≠ ""))

/-- The whole batch: fold the loop over the park records, starting from a
copy of the listings and empty report/counters. -/
def runBatch (fetch : Park → Except String SerpOutcome) (listings : List Park) :
    BatchState :=
  (parksOf listings).foldl (stepPark fetch)
    { updatedListings := listings
      reportRows := []
      verifiedCount := 0
      notCount := 0
      unknownCount := 0
      errors := 0 }

/-- Whether the oracle throws for this record. -/
def fetchErrs (fetch : Park → Except String SerpOutcome) (park : Park) : Bool :=
  match fetch park with
  | .error _ => true
  | .ok _ => false

/-- The single report row produced for one park (both branches append exactly
one row). -/
def rowFor (fetch : Park → Except String SerpOutcome) (park : Park) : ReportRow :=
  match fetch park with
  | .error msg => errorRow park msg
  | .ok out =>
      okRow park (decideFromText out.evidenceText)
        (newStatusFor park (decideFromText out.evidenceText).verdict) out.topLink

theorem stepPark_rows (fetch : Park → Except String SerpOutcome) (st : BatchState)
    (park : Park) :
    (stepPark fetch st park).reportRows = st.reportRows ++ [rowFor fetch park] := by
  rw [stepPark, rowFor]
  cases fetch park with
  | error msg => rfl
  | ok out =>
      simp only
      by_cases h1 : (decideFromText out.evidenceText).verdict = "dog_friendly"
      · simp [h1]
      · by_cases h2 : (decideFromText out.evidenceText).verdict = "not_dog_friendly" <;>
          simp [h1, h2]

theorem stepPark_errors (fetch : Park → Except String SerpOutcome) (st : BatchState)
    (park : Park) :
    (stepPark fetch st park).errors =
      st.errors + (if fetchErrs fetch park then 1 else 0) := by
  rw [stepPark, fetchErrs]
  cases fetch park with
  | error msg => rfl
  | ok out =>
      simp only
      by_cases h1 : (decideFromText out.evidenceText).verdict = "dog_friendly"
      · simp [h1]
      · by_cases h2 : (decideFromText out.evidenceText).verdict = "not_dog_friendly" <;>
          simp [h1, h2]

theorem foldl_stepPark_rows (fetch : Park → Except String SerpOutcome) :
    ∀ (parks : List Park) (st : BatchState),
      (parks.foldl (stepPark fetch) st).reportRows =
        st.reportRows ++ parks.map (rowFor fetch) := by
  intro parks
  induction parks with
  | nil => intro st; simp
  | cons p ps ih =>
      intro st
      rw [List.foldl_cons, ih, stepPark_rows]
      simp

theorem foldl_stepPark_errors (fetch : Park → Except String SerpOutcome) :
    ∀ (parks : List Park) (st : BatchState),
      (parks.foldl (stepPark fetch) st).errors =
        st.errors + parks.countP (fetchErrs fetch) := by
  intro parks
  induction parks with
  | nil => intro st; simp
  | cons p ps ih =>
      intro st
      rw [List.foldl_cons, ih, stepPark_errors, List.countP_cons]
      by_cases h : fetchErrs fetch p <;> simp [h] <;> omega

/-- C9: an error raised while processing one record is caught for that record
alone — the report row of that record carries verdict `"error"`, the error
message, and the record's prior `verificationStatus`; the batch still
produces one row per park record; the final error counter counts exactly the
erroring records; and an erroring iteration leaves the updated listings
untouched. -/
theorem c9_per_record_error_isolation (fetch : Park → Except String SerpOutcome)
    (listings : List Park) (i : Nat) (park : Park) (msg : String)
    (hpark : (parksOf listings)[i]? = some park)
    (herr : fetch park = Except.error msg) :
    (runBatch fetch listings).reportRows.length = (parksOf listings).length ∧
      (runBatch fetch listings).reportRows[i]? = some (errorRow park msg) ∧
      (errorRow park msg).verdict = "error" ∧
      (errorRow park msg).reason = msg ∧
      (errorRow park msg).setVerificationStatus =
        park.verificationStatus.getD "needs_check" ∧
      (runBatch fetch listings).errors = (parksOf listings).countP (fetchErrs fetch) ∧
      ∀ st : BatchState, (stepPark fetch st park).updatedListings = st.updatedListings := by
  have hrows : (runBatch fetch listings).reportRows =
      (parksOf listings).map (rowFor fetch) := by
    rw [runBatch, foldl_stepPark_rows]
    rfl
  have hrow : rowFor fetch park = errorRow park msg := by
    rw [rowFor, herr]
  refine ⟨?_, ?_, rfl, rfl, rfl, ?_, ?_⟩
  · rw [hrows, List.length_map]
  · rw [hrows, List.getElem?_map, hpark]
    rw [Option.map_some', hrow]
  · rw [runBatch, foldl_stepPark_errors]
    simp
  · intro st
    rw [stepPark, herr]

/-- Witness for C9 at a concrete input: a single park record whose fetch
always throws; the batch completes with one `"error"` row and an error count
of one. -/
theorem c9_per_record_error_isolation_witness :
    (runBatch (fun _ => Except.error "SerpAPI HTTP 500")
          [{ id := "p1"
             name := "East Coast Park"
             category := "park"
             verificationStatus := some "needs_check" }]).reportRows.length =
        (parksOf
          [{ id := "p1"
             name := "East Coast Park"
             category := "park"
             verificationStatus := some "needs_check" }]).length ∧
      (runBatch (fun _ => Except.error "SerpAPI HTTP 500")
          [{ id := "p1"
             name := "East Coast Park"
             category := "park"
             verificationStatus := some "needs_check" }]).reportRows[0]? =
        some (errorRow
          { id := "p1"
            name := "East Coast Park"
            category := "park"
            verificationStatus := some "needs_check" } "SerpAPI HTTP 500") ∧
      (runBatch (fun _ => Except.error "SerpAPI HTTP 500")
          [{ id := "p1"
             name := "East Coast Park"
             category := "park"
             verificationStatus := some "needs_check" }]).errors =
        (parksOf
          [{ id := "p1"
             name := "East Coast Park"
             category := "park"
             verificationStatus := some "needs_check" }]).countP
          (fetchErrs (fun _ => Except.error "SerpAPI HTTP 500")) := by
  have h := c9_per_record_error_isolation (fun _ => Except.error "SerpAPI HTTP 500")
    [{ id := "p1"
       name := "East Coast Park"
       category := "park"
       verificationStatus := some "needs_check" }] 0
    { id := "p1"
      name := "East Coast Park"
      category := "park"
      verificationStatus := some "needs_check" } "SerpAPI HTTP 500" (by decide) rfl
  exact ⟨h.1, h.2.1, h.2.2.2.2.2.1⟩

/-- C10: `decideFromText` returns `not_dog_friendly` exactly when a NEGATIVE
keyword matches the lowercased text (overriding any positive match),
`dog_friendly` exactly when no NEGATIVE keyword matches and some POSITIVE
keyword does, and `unknown` otherwise; and the loop only ever changes a
park's `verificationStatus` to `"verified"` on a `dog_friendly` verdict. -/
theorem c10_decide_from_text (text : String) :
    ((decideFromText text).verdict = "not_dog_friendly" ↔
        NEGATIVE.any (fun k => strIncludes (lowerString text) k) = true) ∧
      ((decideFromText text).verdict = "dog_friendly" ↔
        NEGATIVE.any (fun k => strIncludes (lowerString text) k) = false ∧
          POSITIVE.any (fun k => strIncludes (lowerString text) k) = true) ∧
      ((decideFromText text).verdict = "unknown" ↔
        NEGATIVE.any (fun k => strIncludes (lowerString text) k) = false ∧
          POSITIVE.any (fun k => strIncludes (lowerString text) k) = false) ∧
      ∀ park : Park, newStatusFor park (decideFromText text).verdict = "verified" →
        park.verificationStatus.getD "needs_check" ≠ "verified" →
        (decideFromText text).verdict = "dog_friendly" := by
  by_cases hneg : NEGATIVE.any (fun k => strIncludes (lowerString text) k) = true
  · have hval : decideFromText text =
        { verdict := "not_dog_friendly", confidence := "high" } := by
      simp [decideFromText, hneg]
    rw [hval]
    refine ⟨iff_of_true rfl hneg, ?_, ?_, ?_⟩
    · exact iff_of_false (by decide) (by simp [hneg])
    · exact iff_of_false (by decide) (by simp [hneg])
    · intro park h _
      simp [newStatusFor] at h
  · have hneg' : NEGATIVE.any (fun k => strIncludes (lowerString text) k) = false :=
      Bool.eq_false_iff.mpr hneg
    cases hfind : POSITIVE.find? (fun k => strIncludes (lowerString text) k) with
    | some hit =>
        have hval : decideFromText text =
            { verdict := "dog_friendly", confidence := "medium",
              reason := some ("matched:" ++ hit) } := by
          simp [decideFromText, hneg', hfind]
        have hany : POSITIVE.any (fun k => strIncludes (lowerString text) k) = true := by
          rw [List.any_eq_true]
          exact ⟨hit, List.mem_of_find?_eq_some hfind, List.find?_some hfind⟩
        rw [hval]
        refine ⟨?_, iff_of_true rfl ⟨hneg', hany⟩, ?_, ?_⟩
        · exact iff_of_false (by intro h; simp at h) (by simp [hneg'])
        · exact iff_of_false (by intro h; simp at h) (by simp [hany])
        · intro park _ _
          rfl
    | none =>
        have hval : decideFromText text =
            { verdict := "unknown", confidence := "low" } := by
          simp [decideFromText, hneg', hfind]
        have hany : POSITIVE.any (fun k => strIncludes (lowerString text) k) = false := by
          rw [List.any_eq_false]
          intro k hk
          exact (List.find?_eq_none.mp hfind) k hk
        rw [hval]
        refine ⟨?_, ?_, iff_of_true rfl ⟨hneg', hany⟩, ?_⟩
        · exact iff_of_false (by decide) (by simp [hneg'])
        · exact iff_of_false (by decide) (by simp [hany])
        · intro park h hne
          simp [newStatusFor] at h
          exact absurd h hne

/-- Witness for C10 at a concrete input: a text matching the POSITIVE keyword
`"bring your dog"` and no NEGATIVE keyword is classified `dog_friendly`. -/
theorem c10_decide_from_text_witness :
    (decideFromText "You may bring your dog to this park").verdict = "dog_friendly" :=
  ((c10_decide_from_text "You may bring your dog to this park").2.1).mpr
    ⟨by decide, by decide⟩

end DogSG
